import Mathlib

/-!
Shallow embedding of `src/optimizer.py` (MCP tool catalog and dispatch engine):
the `MCPToolRegistry` class (registration, keyword search, exact lookup) and the
`find_tool` / `call_tool` closures produced by `_make_tools`.

Modelling conventions:
* Python strings are Lean `String`; the Python string operations used by the
  source (`str.lower`, `str.strip`, slicing, `re.findall(r"\w+", ...)`) are
  re-implemented over `String.data` so that they are kernel-computable.
  `\w` is modelled as ASCII alphanumeric or underscore (all inputs in this
  development are ASCII).
* Python `set` objects are modelled as deduplicated lists (`List.dedup`):
  only membership and cardinality of the sets are ever used by the source.
* `len(found) / len(words)` is a Python float; both operands are small
  naturals and every comparison made of these scores is between fractions
  with the same denominator `len(words)`, where IEEE rounding is monotone and
  collision-free, so the score is modelled exactly as a rational (`ℚ`).
* Python's `list.sort(key=lambda x: x[0], reverse=True)` is a stable sort,
  descending on the first component; it is modelled by a stable descending
  insertion sort, which computes the same list.
* `json.loads` (stdlib, external to the repository) is an explicit parameter
  `loads` of `callTool`; JSON values are the inductive `JVal`.
* The opaque started client is a function from `(tool_use_id, name, arguments)`
  to either a raised exception (`PyExn`: its type name and message) or a
  result value (`InvokeResult`).  A result is either a Python dict (with an
  optional `"status"` entry, a `"content"` list defaulting to `[]`, and its
  `str()` rendering) or a non-dict value (its truthiness and `str()`
  rendering).  Content blocks are modelled by the text the source extracts
  from them (`block.get("text", "")` / `getattr(block, "text", "")`), which
  defaults to `""` when absent.
* `call_tool` additionally returns the ordered trace of effects it performed
  (registry lookup, suggestion search, session invocation) so that claims of
  the form "the session is never invoked" are statable; the first component
  is exactly the string the Python function returns.
* `uuid.uuid4().hex` is an input (`uuidHex`): the source only slices it.
-/

namespace MCPOptimizer

/-- JSON-shaped Python values (arguments, input schemas). -/
inductive JVal where
  | null
  | bool (b : Bool)
  | num (n : Int)
  | str (s : String)
  | arr (elems : List JVal)
  | obj (fields : List (String × JVal))

/-- A raised Python exception: `type(exc).__name__` and `str(exc)`. -/
structure PyExn where
  typeName : String
  msg : String

/-- One element of the result's `content` list, reduced to the text the
source extracts from it: `block.get("text", "")` for dict blocks and
`getattr(block, "text", "")` for attribute-style blocks; `""` when absent. -/
structure Block where
  text : String

/-- The value returned by `call_tool_sync`: either a Python dict (optional
`"status"` entry, `"content"` list with `[]` default, and its `str()`
rendering) or any other value (its truthiness and `str()` rendering). -/
inductive InvokeResult where
  | dict (statusOpt : Option String) (content : List Block) (strRepr : String)
  | nonDict (truthy : Bool) (strRepr : String)

/-- The live started client stored at registration time: one synchronous
operation `call_tool_sync(tool_use_id, name, arguments)` which either raises
or returns a result. -/
structure Client where
  call_tool_sync : String → String → JVal → Except PyExn InvokeResult

/-- One `MCPAgentTool` as consumed by `register`: `tool_name`, and the
`description` / `inputSchema` entries of `tool_spec` (absent entries are
`none`; `tool_spec.get` supplies the defaults). -/
structure MCPTool where
  tool_name : String
  description : Option String
  inputSchema : Option (List (String × JVal))

/-- Python `str.lower()` (ASCII). -/
def pyLower (s : String) : String := ⟨s.data.map Char.toLower⟩

/-- Python whitespace for `str.strip()` (ASCII). -/
def pyIsSpace (c : Char) : Bool :=
  c == ' ' || c == '\t' || c == '\n' || c == '\r' || c == '\x0b' || c == '\x0c'

/-- Python `str.strip()`. -/
def pyStrip (s : String) : String :=
  ⟨((s.data.dropWhile pyIsSpace).reverse.dropWhile pyIsSpace).reverse⟩

/-- Python string slice `s[:n]` for `n ≥ 0`. -/
def pyStrTake (s : String) (n : Nat) : String := ⟨s.data.take n⟩

/-- A `\w` word character: ASCII alphanumeric or underscore. -/
def isWordChar (c : Char) : Bool := c.isAlphanum || c == '_'

/-- Maximal runs of word characters, accumulator-style scanner. -/
def tokenizeAux : List Char → List Char → List String
  | [], acc => if acc.isEmpty then [] else [String.mk acc.reverse]
  | c :: cs, acc =>
    if isWordChar c then tokenizeAux cs (c :: acc)
    else if acc.isEmpty then tokenizeAux cs []
    else String.mk acc.reverse :: tokenizeAux cs []

/-- Python `re.findall(r"\w+", s)`. -/
def findallWords (s : String) : List String := tokenizeAux s.data []

/-- Python list slice `l[:k]` for an arbitrary (possibly negative) `k`:
`l[:k]` keeps the first `k` elements when `k ≥ 0` and drops the last `|k|`
elements (clamped at nothing) when `k < 0`. -/
def pySlice {α : Type} (l : List α) (k : Int) : List α :=
  if 0 ≤ k then l.take k.toNat else l.take (l.length - (-k).toNat)

/-- One registry entry, the dict built by `MCPToolRegistry.register`. -/
structure Entry where
  name : String
  description : String
  input_schema : JVal
  server_name : String
  started_client : Client

/-- `MCPToolRegistry` state: the ordered `_tools` list and the `_index` dict.
The dict is modelled as an association list onto which `_index[name] = entry`
conses, so the first match is the most recent write (Python dict overwrite
semantics for `get`). -/
structure Registry where
  tools : List Entry
  index : List (String × Entry)

/-- `MCPToolRegistry()`. -/
def Registry.empty : Registry := ⟨[], []⟩

/-- The entry dict built for one tool inside `register`'s loop body:
qualified `name`, description and schema with `tool_spec.get` defaults, the
`{"json": ...}` unwrapping, and the live client reference. -/
def mkEntry (server_name : String) (started_client : Client) (mcp_tool : MCPTool) : Entry :=
  let description := mcp_tool.description.getD ""
  let raw_schema := mcp_tool.inputSchema.getD []
  let input_schema := (raw_schema.lookup "json").getD (JVal.obj raw_schema)
  { name := pyLower server_name ++ "_" ++ mcp_tool.tool_name
    description := description
    input_schema := input_schema
    server_name := server_name
    started_client := started_client }

/-- `MCPToolRegistry.register`: index all tools from one server, returning
the new state and the count of descriptors added. -/
def Registry.register (r : Registry) (server_name : String) (started_client : Client)
    (mcp_tools : List MCPTool) : Registry × Nat :=
  mcp_tools.foldl
    (fun acc mcp_tool =>
      let entry := mkEntry server_name started_client mcp_tool
      (⟨acc.1.tools ++ [entry], (mcp_tool.tool_name, entry) :: acc.1.index⟩, acc.2 + 1))
    (r, 0)

/-- `MCPToolRegistry.get`: exact lookup in `_index` (keyed by raw name). -/
def Registry.get (r : Registry) (name : String) : Option Entry :=
  List.lookup name r.index

/-- The query's token set: `set(re.findall(r"\w+", query.lower()))`. -/
def queryWords (query : String) : List String := (findallWords (pyLower query)).dedup

/-- The tokens of one descriptor's document text
`f"{entry['name']} {entry['description']}".lower()`. -/
def docTokens (entry : Entry) : List String :=
  findallWords (pyLower (entry.name ++ " " ++ entry.description))

/-- `score = len(found) / len(words)` for one entry, where
`found = words & set(re.findall(r"\w+", text))`. -/
def entryScore (words : List String) (entry : Entry) : ℚ :=
  let found := words.filter (fun w => decide (w ∈ docTokens entry))
  (found.length : ℚ) / (words.length : ℚ)

/-- The `scored` list built by `search`'s loop: each entry with positive
score, paired with its score, in registration order. -/
def scoredList (words : List String) (tools : List Entry) : List (ℚ × Entry) :=
  tools.filterMap (fun entry =>
    let score := entryScore words entry
    if 0 < score then some (score, entry) else none)

/-- Stable descending insertion (by first component): the new element goes
after every element with an equal or larger score. -/
def insertDesc {α : Type} (x : ℚ × α) : List (ℚ × α) → List (ℚ × α)
  | [] => [x]
  | y :: ys => if x.1 ≤ y.1 then y :: insertDesc x ys else x :: y :: ys

/-- Python's stable `scored.sort(key=lambda x: x[0], reverse=True)`. -/
def pySortDesc {α : Type} (l : List (ℚ × α)) : List (ℚ × α) :=
  l.foldl (fun acc x => insertDesc x acc) []

/-- `MCPToolRegistry.search`: keyword search over name + description. -/
def Registry.search (r : Registry) (query : String) (top_k : Int) : List Entry :=
  let words := queryWords query
  if words.isEmpty then pySlice r.tools top_k
  else (pySlice (pySortDesc (scoredList words r.tools)) top_k).map Prod.snd

/-- `MCPToolRegistry.servers`: distinct server names in first-seen order. -/
def Registry.servers (r : Registry) : List String :=
  r.tools.foldl (fun seen e => if e.server_name ∈ seen then seen else seen ++ [e.server_name]) []

/-- The numbered line `find_tool` renders for one search result (the body of
its f-string; `dumps` is `json.dumps(entry["input_schema"], indent=2)`). -/
def findToolLine (i : Nat) (entry : Entry) (dumps : JVal → String) : String :=
  "[" ++ toString i ++ "] " ++ entry.name ++ "  (server: " ++ entry.server_name ++ ")\n"
    ++ "    Description : " ++ entry.description ++ "\n"
    ++ "    Input schema:\n" ++ dumps entry.input_schema ++ "\n"

/-- The `find_tool` closure built by `_make_tools`. -/
def findTool (r : Registry) (dumps : JVal → String) (query0 : String) (top_k : Int) : String :=
  let query := pyStrip query0
  if query = "" then "ERROR: query cannot be empty."
  else
    let results := r.search query top_k
    if results.isEmpty then
      let servers := String.intercalate ", " r.servers
      "No tools found matching '" ++ query ++ "'.\nAvailable servers: "
        ++ (if servers = "" then "none" else servers)
        ++ "\nTry a broader search term."
    else
      let header := "Found " ++ toString results.length ++ " tool(s) matching '" ++ query ++ "':\n"
      let lines := header :: (results.enum.map (fun p => findToolLine (p.1 + 1) p.2 dumps))
      String.intercalate "\n" lines

/-- The raw argument payload of `call_tool`: an already-structured dict, a
string, or Python `None`. -/
inductive ArgPayload where
  | dictArg (d : List (String × JVal))
  | strArg (s : String)
  | noneArg

/-- Effects `call_tool` performs, in order: exact catalog lookup, suggestion
search, session invocation. -/
inductive Event where
  | lookupEvent (name : String)
  | searchEvent (query : String) (top_k : Int)
  | sessionCall (tool_use_id : String) (name : String) (args : JVal)

/-- The early-return message for a blank tool name. -/
def emptyToolNameMsg : String :=
  "ERROR: tool_name is required. Use find_tool to discover tool names."

/-- The `InvalidArguments` message (`{args_str!r}` is modelled as the quoted
string, which is Python `repr` for strings without escapes). -/
def invalidArgsMsg (args_str : String) (exc : String) : String :=
  "ERROR: arguments must be a valid JSON string.\nReceived: '" ++ args_str
    ++ "'\nJSON error: " ++ exc
    ++ "\nExample: '\x7b\"issue_key\": \"RBTES-121\"\x7d'"

/-- The suggestion text: `", ".join(e["name"] for e in similar) if similar
else "none found"`. -/
def suggestionsText (similar : List Entry) : String :=
  if similar.isEmpty then "none found"
  else String.intercalate ", " (similar.map (fun e => e.name))

/-- The `ToolNotFound` message. -/
def toolNotFoundMsg (tool_name suggestions : String) : String :=
  "ERROR: Tool '" ++ tool_name ++ "' not found in registry.\nDid you mean: "
    ++ suggestions ++ "?\nUse find_tool to search for the correct tool name."

/-- The `TransportError` message produced when `call_tool_sync` raises. -/
def transportErrorMsg (tool_name : String) (exc : PyExn) : String :=
  "ERROR calling '" ++ tool_name ++ "': " ++ exc.typeName ++ ": " ++ exc.msg
    ++ "\nThe MCP session for this tool may have closed. Try restarting the agent."

/-- The distinguished empty-success marker. -/
def emptyResultMsg : String := "(Tool returned an empty result)"

/-- The "Extract text from result" section of `call_tool`. -/
def extractText (tool_name : String) (result : InvokeResult) : String :=
  match result with
  | .dict statusOpt content strRepr =>
    let status := statusOpt.getD "success"
    let text_parts := (content.map (fun block => block.text)).filter (fun t => t != "")
    let output := if text_parts.isEmpty then strRepr else String.intercalate "\n" text_parts
    if status = "error" then "Tool '" ++ tool_name ++ "' returned an error:\n" ++ output
    else if output = "" then emptyResultMsg
    else output
  | .nonDict truthy strRepr => if truthy then strRepr else emptyResultMsg

/-- The `call_tool` closure built by `_make_tools`.  The first component is
the string Python returns; the second is the trace of effects performed. -/
def callTool (r : Registry) (loads : String → Except String JVal) (uuidHex : String)
    (toolName : String) (arguments : ArgPayload) : String × List Event :=
  let tool_name := pyStrip toolName
  if tool_name = "" then (emptyToolNameMsg, [])
  else
    let argsRes : Sum (String × String) JVal :=
      match arguments with
      | .dictArg d => .inr (.obj d)
      | .strArg s =>
        let args_str := pyStrip (if s = "" then "\x7b\x7d" else s)
        match loads args_str with
        | .ok v => .inr v
        | .error exc => .inl (args_str, exc)
      | .noneArg =>
        let args_str := pyStrip "\x7b\x7d"
        match loads args_str with
        | .ok v => .inr v
        | .error exc => .inl (args_str, exc)
    match argsRes with
    | .inl (args_str, exc) => (invalidArgsMsg args_str exc, [])
    | .inr args =>
      match r.get tool_name with
      | none =>
        let similar := r.search tool_name 3
        (toolNotFoundMsg tool_name (suggestionsText similar),
         [.lookupEvent tool_name, .searchEvent tool_name 3])
      | some entry =>
        let tool_use_id := "optimizer-" ++ pyStrTake uuidHex 8
        match entry.started_client.call_tool_sync tool_use_id tool_name args with
        | .error exc =>
          (transportErrorMsg tool_name exc,
           [.lookupEvent tool_name, .sessionCall tool_use_id tool_name args])
        | .ok result =>
          (extractText tool_name result,
           [.lookupEvent tool_name, .sessionCall tool_use_id tool_name args])

/-- A whole startup sequence: one `register` call per backend, from an empty
registry (how `_make_tools` closures ever see a registry). -/
def registerBatches (batches : List (String × Client × List MCPTool)) : Registry :=
  batches.foldl (fun r b => (r.register b.1 b.2.1 b.2.2).1) Registry.empty

/-- All raw tool names a registration sequence ever indexes. -/
def batchRawNames (batches : List (String × Client × List MCPTool)) : List String :=
  (batches.map (fun b => b.2.2.map (fun t => t.tool_name))).flatten

/-- Model of stdlib `json.loads` on the inputs exercised by the concrete
witnesses: `"{}"` parses to the empty object and the other probed inputs
(such as `""` and `"not valid json"`) raise `json.JSONDecodeError`. -/
def jsonLoadsModel : String → Except String JVal := fun s =>
  if s = "\x7b\x7d" then .ok (.obj []) else .error "Expecting value: line 1 column 1 (char 0)"

/-- A started client whose session has died: every invocation raises. -/
def dummyClient : Client := ⟨fun _ _ _ => .error ⟨"RuntimeError", "session closed"⟩⟩

/-- A started client answering `{"status": "success", "content": [{"text": "ok"}]}`. -/
def clientOkText : Client :=
  ⟨fun _ _ _ => .ok (.dict (some "success") [⟨"ok"⟩] "\x7b...\x7d")⟩

/-- A started client answering the empty dict `{}` (whose `str()` is `"{}"`). -/
def clientEmptyDict : Client := ⟨fun _ _ _ => .ok (.dict none [] "\x7b\x7d")⟩

def toolA : MCPTool := ⟨"alpha", some "first tool", none⟩

def toolB : MCPTool := ⟨"beta", some "second tool", none⟩

def toolT1 : MCPTool := ⟨"t1", some "a tool", none⟩

def jiraTool : MCPTool := ⟨"list_issues", some "list jira issues", none⟩

/-- A two-tool catalog from one backend. -/
def regTwo : Registry := (Registry.empty.register "S" dummyClient [toolA, toolB]).1

/-- A one-backend startup sequence for the qualified-name claims. -/
def jiraBatches : List (String × Client × List MCPTool) := [("Jira", dummyClient, [jiraTool])]

/-- One tool whose session answers with a text block. -/
def regText : Registry := (Registry.empty.register "S" clientOkText [toolT1]).1

/-- One tool whose session answers with the empty dict. -/
def regEmptyDict : Registry := (Registry.empty.register "S" clientEmptyDict [toolT1]).1

/-- One tool whose session raises. -/
def regErr : Registry := (Registry.empty.register "S" dummyClient [toolT1]).1

/-! ### String facts -/

theorem strAppendAssoc (a b c : String) : a ++ b ++ c = a ++ (b ++ c) := by
  obtain ⟨la⟩ := a
  obtain ⟨lb⟩ := b
  obtain ⟨lc⟩ := c
  show String.mk ((la ++ lb) ++ lc) = String.mk (la ++ (lb ++ lc))
  rw [List.append_assoc]

theorem strLength_eq_zero_iff (s : String) : s.length = 0 ↔ s = "" := by
  obtain ⟨l⟩ := s
  constructor
  · intro h
    have hl : l = [] := List.length_eq_zero.mp h
    rw [hl]
  · intro h
    rw [h]
    rfl

theorem mkEntry_name_ne (s : String) (c : Client) (t : MCPTool) : (mkEntry s c t).name ≠ "" := by
  intro h
  have hlen := congrArg String.length h
  rw [show (mkEntry s c t).name = pyLower s ++ "_" ++ t.tool_name from rfl] at hlen
  rw [String.length_append, String.length_append] at hlen
  have h1 : ("_" : String).length = 1 := rfl
  have h0 : ("" : String).length = 0 := rfl
  omega

theorem intercalate_go_length (sep : String) (l : List String) (acc : String) :
    acc.length ≤ (String.intercalate.go acc sep l).length := by
  induction l generalizing acc with
  | nil => simp [String.intercalate.go]
  | cons a as ih =>
    have step : acc.length ≤ (acc ++ sep ++ a).length := by
      rw [String.length_append, String.length_append]
      omega
    calc acc.length ≤ (acc ++ sep ++ a).length := step
      _ ≤ (String.intercalate.go (acc ++ sep ++ a) sep as).length := ih (acc ++ sep ++ a)
      _ = (String.intercalate.go acc sep (a :: as)).length := rfl

theorem intercalate_ne_empty (sep p : String) (rest : List String) (hp : p ≠ "") :
    String.intercalate sep (p :: rest) ≠ "" := by
  intro h
  have h2 : p.length ≤ (String.intercalate sep (p :: rest)).length :=
    intercalate_go_length sep rest p
  rw [h] at h2
  have h0 : ("" : String).length = 0 := rfl
  have hp' : p.length ≠ 0 := fun hz => hp ((strLength_eq_zero_iff p).mp hz)
  omega

/-! ### Association-list lookups -/

theorem lookup_eq_none_of_forall {β : Type} (q : String) (l : List (String × β))
    (h : ∀ p ∈ l, p.1 ≠ q) : List.lookup q l = none := by
  induction l with
  | nil => rfl
  | cons p ps ih =>
    obtain ⟨k, v⟩ := p
    have hk : (q == k) = false := by
      have hne := h (k, v) (List.mem_cons_self _ _)
      simpa using Ne.symm hne
    simp only [List.lookup, hk]
    exact ih (fun x hx => h x (List.mem_cons_of_mem _ hx))

/-! ### The shape of `register` -/

theorem register_foldl (s : String) (c : Client) (ts : List MCPTool) (r : Registry) (n : Nat) :
    (ts.foldl
      (fun acc mcp_tool =>
        let entry := mkEntry s c mcp_tool
        (⟨acc.1.tools ++ [entry], (mcp_tool.tool_name, entry) :: acc.1.index⟩, acc.2 + 1))
      (r, n))
    = (⟨r.tools ++ ts.map (mkEntry s c),
        (ts.map (fun t => (t.tool_name, mkEntry s c t))).reverse ++ r.index⟩, n + ts.length) := by
  induction ts generalizing r n with
  | nil => simp
  | cons t ts ih =>
    simp only [List.foldl_cons, List.map_cons, List.reverse_cons, List.length_cons]
    rw [ih]
    simp [List.append_assoc]
    omega

theorem register_eq (r : Registry) (s : String) (c : Client) (ts : List MCPTool) :
    r.register s c ts
    = (⟨r.tools ++ ts.map (mkEntry s c),
        (ts.map (fun t => (t.tool_name, mkEntry s c t))).reverse ++ r.index⟩, ts.length) := by
  show (ts.foldl _ (r, 0)) = _
  rw [register_foldl]
  simp

/-- Claim C6: registering two tools with the same raw name (from different
backends) makes the later registration silently replace the earlier entry in
the exact-lookup index (`get` returns the later entry), while the ordered
`_tools` list retains both; registration is append-only and preserves
insertion order. -/
theorem c6_raw_name_collision (r : Registry) (s1 s2 : String) (c1 c2 : Client)
    (t1 t2 : MCPTool) (hname : t1.tool_name = t2.tool_name) (_hs : s1 ≠ s2) :
    (((r.register s1 c1 [t1]).1.register s2 c2 [t2]).1).get t1.tool_name
      = some (mkEntry s2 c2 t2)
    ∧ (((r.register s1 c1 [t1]).1.register s2 c2 [t2]).1).tools
      = r.tools ++ [mkEntry s1 c1 t1, mkEntry s2 c2 t2]
    ∧ ∀ (s : String) (c : Client) (ts : List MCPTool),
        ((r.register s c ts).1).tools = r.tools ++ ts.map (mkEntry s c) := by
  refine ⟨?_, ?_, ?_⟩
  · rw [register_eq, register_eq]
    simp only [Registry.get, List.map_cons, List.map_nil, List.reverse_cons, List.reverse_nil]
    rw [hname]
    simp [List.lookup]
  · rw [register_eq, register_eq]
    simp [List.append_assoc]
  · intro s c ts
    rw [register_eq]

/-- Witness for C6: a concrete collision between backends `A` and `B`. -/
theorem c6_raw_name_collision_witness :
    (toolT1.tool_name = toolT1.tool_name ∧ ("A" : String) ≠ "B")
    ∧ (((Registry.empty.register "A" dummyClient [toolT1]).1.register "B" clientOkText [toolT1]).1).get toolT1.tool_name
      = some (mkEntry "B" clientOkText toolT1)
    ∧ (((Registry.empty.register "A" dummyClient [toolT1]).1.register "B" clientOkText [toolT1]).1).tools
      = Registry.empty.tools ++ [mkEntry "A" dummyClient toolT1, mkEntry "B" clientOkText toolT1] :=
  ⟨⟨rfl, by decide⟩,
    (c6_raw_name_collision Registry.empty "A" "B" dummyClient clientOkText toolT1 toolT1 rfl
      (by decide)).1,
    (c6_raw_name_collision Registry.empty "A" "B" dummyClient clientOkText toolT1 toolT1 rfl
      (by decide)).2.1⟩

/-! ### Keys and entries of a whole registration sequence -/

theorem batches_foldl_keys (bs : List (String × Client × List MCPTool)) (r : Registry)
    (q : String) :
    q ∈ ((bs.foldl (fun r b => (r.register b.1 b.2.1 b.2.2).1) r).index.map Prod.fst)
    ↔ q ∈ batchRawNames bs ∨ q ∈ r.index.map Prod.fst := by
  induction bs generalizing r with
  | nil => simp [batchRawNames]
  | cons b bs ih =>
    simp only [List.foldl_cons]
    rw [ih]
    rw [register_eq]
    simp only [batchRawNames, List.map_cons, List.flatten_cons, List.mem_append,
      List.map_append, List.map_reverse, List.mem_reverse, List.map_map]
    have hfst : (Prod.fst ∘ fun t : MCPTool => (t.tool_name, mkEntry b.1 b.2.1 t))
        = fun t : MCPTool => t.tool_name := rfl
    rw [hfst]
    simp only [batchRawNames] at *
    tauto

theorem registerBatches_get_none (bs : List (String × Client × List MCPTool)) (q : String)
    (hq : q ∉ batchRawNames bs) : (registerBatches bs).get q = none := by
  apply lookup_eq_none_of_forall
  intro p hp hpq
  apply hq
  have hmem : q ∈ (registerBatches bs).index.map Prod.fst := by
    rw [← hpq]
    exact List.mem_map_of_mem Prod.fst hp
  have h2 := (batches_foldl_keys bs Registry.empty q).mp hmem
  simpa [Registry.empty] using h2

theorem batches_foldl_tools (bs : List (String × Client × List MCPTool)) (r : Registry)
    (e : Entry)
    (he : e ∈ (bs.foldl (fun r b => (r.register b.1 b.2.1 b.2.2).1) r).tools) :
    e ∈ r.tools ∨ ∃ s c t, e = mkEntry s c t := by
  induction bs generalizing r with
  | nil => exact Or.inl he
  | cons b bs ih =>
    rw [List.foldl_cons] at he
    rcases ih _ he with h | h
    · rw [register_eq] at h
      rcases List.mem_append.mp h with h2 | h2
      · exact Or.inl h2
      · rcases List.mem_map.mp h2 with ⟨t, _, rfl⟩
        exact Or.inr ⟨b.1, b.2.1, t, rfl⟩
    · exact Or.inr h

theorem registerBatches_name_ne (bs : List (String × Client × List MCPTool)) (e : Entry)
    (he : e ∈ (registerBatches bs).tools) : e.name ≠ "" := by
  rcases batches_foldl_tools bs Registry.empty e he with h | ⟨s, c, t, rfl⟩
  · simp [Registry.empty] at h
  · exact mkEntry_name_ne s c t

/-! ### Evaluating `callTool` on the not-found branch -/

theorem callTool_of_get_none (r : Registry) (loads : String → Except String JVal)
    (uuidHex toolName : String) (v : JVal)
    (hname : pyStrip toolName ≠ "")
    (hload : loads (pyStrip "\x7b\x7d") = .ok v)
    (hget : r.get (pyStrip toolName) = none) :
    callTool r loads uuidHex toolName (.strArg "\x7b\x7d")
      = (toolNotFoundMsg (pyStrip toolName)
          (suggestionsText (r.search (pyStrip toolName) 3)),
         [.lookupEvent (pyStrip toolName), .searchEvent (pyStrip toolName) 3]) := by
  simp only [callTool]
  rw [if_neg hname]
  simp only [ite_self, hload, hget]

/-- Claim C9: the stored qualified name is `lowercase(serverName) + "_" +
rawName` and the exact-lookup key is the raw name; concretely, registering a
tool named `list_issues` described `list jira issues` under server `Jira`
yields lookup key `list_issues` and qualified name `jira_list_issues`. -/
theorem c9_register_round_trip (r : Registry) (s : String) (c : Client) (t : MCPTool) :
    ((r.register s c [t]).1).get t.tool_name = some (mkEntry s c t)
    ∧ (mkEntry s c t).name = pyLower s ++ "_" ++ t.tool_name
    ∧ ((Registry.empty.register "Jira" c [jiraTool]).1).get "list_issues"
        = some ⟨"jira_list_issues", "list jira issues", .obj [], "Jira", c⟩ := by
  refine ⟨?_, rfl, ?_⟩
  · rw [register_eq]
    simp [Registry.get, List.lookup]
  · rfl

/-- Claim C1: for a registry produced by any startup registration sequence,
a registered tool whose qualified name differs from every registered raw
name is invisible to exact lookup (`get` on the qualified name is `none`),
because the index is keyed only by raw names; `call_tool` invoked with
exactly that qualified name (with `"{}"` arguments) therefore takes the
`ToolNotFound` branch — it returns the not-found message and performs no
session invocation — even though the qualified name is precisely the name
string `find_tool` renders for the tool (last conjunct: the rendered line
embeds `e.name` verbatim). -/
theorem c1_qualified_name_misses (bs : List (String × Client × List MCPTool))
    (loads : String → Except String JVal) (uuidHex : String) (dumps : JVal → String)
    (e : Entry) (v : JVal)
    (he : e ∈ (registerBatches bs).tools)
    (hq : e.name ∉ batchRawNames bs)
    (htrim : pyStrip e.name = e.name)
    (hload : loads (pyStrip "\x7b\x7d") = .ok v) :
    (registerBatches bs).get e.name = none
    ∧ callTool (registerBatches bs) loads uuidHex e.name (.strArg "\x7b\x7d")
      = (toolNotFoundMsg e.name (suggestionsText ((registerBatches bs).search e.name 3)),
         [.lookupEvent e.name, .searchEvent e.name 3])
    ∧ ∀ i : Nat, ∃ pre post : String, findToolLine i e dumps = pre ++ (e.name ++ post) := by
  have hget : (registerBatches bs).get e.name = none := registerBatches_get_none bs e.name hq
  have hname : pyStrip e.name ≠ "" := by
    rw [htrim]
    exact registerBatches_name_ne bs e he
  refine ⟨hget, ?_, ?_⟩
  · have h2 := callTool_of_get_none (registerBatches bs) loads uuidHex e.name v hname hload
      (by rw [htrim]; exact hget)
    rw [htrim] at h2
    exact h2
  · intro i
    refine ⟨"[" ++ toString i ++ "] ",
      "  (server: " ++ e.server_name ++ ")\n" ++ "    Description : " ++ e.description
        ++ "\n" ++ "    Input schema:\n" ++ dumps e.input_schema ++ "\n", ?_⟩
    simp only [findToolLine, strAppendAssoc]

/-- Witness for C1: the Jira tool registered as `jira_list_issues` is not
reachable by exact lookup under its qualified name. -/
theorem c1_qualified_name_misses_witness :
    (mkEntry "Jira" dummyClient jiraTool ∈ (registerBatches jiraBatches).tools
      ∧ (mkEntry "Jira" dummyClient jiraTool).name ∉ batchRawNames jiraBatches
      ∧ pyStrip (mkEntry "Jira" dummyClient jiraTool).name
          = (mkEntry "Jira" dummyClient jiraTool).name
      ∧ jsonLoadsModel (pyStrip "\x7b\x7d") = .ok (.obj []))
    ∧ (registerBatches jiraBatches).get (mkEntry "Jira" dummyClient jiraTool).name = none :=
  ⟨⟨List.mem_singleton_self _, by decide, rfl, rfl⟩,
    (c1_qualified_name_misses jiraBatches jsonLoadsModel "deadbeefcafe" (fun _ => "")
      (mkEntry "Jira" dummyClient jiraTool) (.obj [])
      (List.mem_singleton_self _) (by decide) rfl rfl).1⟩

/-! ### The stable descending sort -/

theorem insertDesc_perm {α : Type} (x : ℚ × α) (l : List (ℚ × α)) :
    (insertDesc x l).Perm (x :: l) := by
  induction l with
  | nil => exact List.Perm.refl _
  | cons y ys ih =>
    simp only [insertDesc]
    by_cases h : x.1 ≤ y.1
    · rw [if_pos h]
      exact (ih.cons y).trans (List.Perm.swap x y ys)
    · rw [if_neg h]

theorem insertDesc_pairwise {α : Type} (x : ℚ × α) (l : List (ℚ × α))
    (h : l.Pairwise (fun a b => b.1 ≤ a.1)) :
    (insertDesc x l).Pairwise (fun a b => b.1 ≤ a.1) := by
  induction l with
  | nil => simp [insertDesc]
  | cons y ys ih =>
    rw [List.pairwise_cons] at h
    obtain ⟨hy, hys⟩ := h
    simp only [insertDesc]
    by_cases hxy : x.1 ≤ y.1
    · rw [if_pos hxy]
      rw [List.pairwise_cons]
      refine ⟨?_, ih hys⟩
      intro z hz
      rcases List.mem_cons.mp ((insertDesc_perm x ys).mem_iff.mp hz) with rfl | hz2
      · exact hxy
      · exact hy z hz2
    · rw [if_neg hxy]
      rw [List.pairwise_cons]
      have hlt : y.1 < x.1 := lt_of_not_le hxy
      refine ⟨?_, List.pairwise_cons.mpr ⟨hy, hys⟩⟩
      intro z hz
      rcases List.mem_cons.mp hz with rfl | hz2
      · exact le_of_lt hlt
      · exact le_trans (hy z hz2) (le_of_lt hlt)

theorem insertDesc_filter {α : Type} (s : ℚ) (x : ℚ × α) (l : List (ℚ × α))
    (h : l.Pairwise (fun a b => b.1 ≤ a.1)) :
    (insertDesc x l).filter (fun z => decide (z.1 = s))
      = l.filter (fun z => decide (z.1 = s)) ++ (if x.1 = s then [x] else []) := by
  induction l with
  | nil =>
    by_cases hx : x.1 = s
    · simp [insertDesc, hx]
    · simp [insertDesc, hx]
  | cons y ys ih =>
    rw [List.pairwise_cons] at h
    obtain ⟨hy, hys⟩ := h
    simp only [insertDesc]
    by_cases hxy : x.1 ≤ y.1
    · rw [if_pos hxy]
      by_cases hyp : y.1 = s
      · simp [List.filter_cons, hyp, ih hys]
      · simp [List.filter_cons, hyp, ih hys]
    · rw [if_neg hxy]
      have hlt : y.1 < x.1 := lt_of_not_le hxy
      by_cases hx : x.1 = s
      · have hnil : List.filter (fun z => decide (z.1 = s)) (y :: ys) = [] := by
          rw [List.filter_eq_nil_iff]
          intro z hz
          simp only [decide_eq_true_eq]
          intro hzs
          have hzle : z.1 ≤ y.1 := by
            rcases List.mem_cons.mp hz with rfl | hz2
            · exact le_refl _
            · exact hy z hz2
          have hzlt : z.1 < s := lt_of_le_of_lt hzle (hx ▸ hlt)
          exact absurd hzs (ne_of_lt hzlt)
        simp [List.filter_cons, hx, hnil]
      · simp [List.filter_cons, hx]

theorem pySortDesc_aux {α : Type} (l acc : List (ℚ × α))
    (hacc : acc.Pairwise (fun a b => b.1 ≤ a.1)) :
    (l.foldl (fun acc x => insertDesc x acc) acc).Pairwise (fun a b => b.1 ≤ a.1)
    ∧ (l.foldl (fun acc x => insertDesc x acc) acc).Perm (acc ++ l)
    ∧ ∀ s : ℚ, (l.foldl (fun acc x => insertDesc x acc) acc).filter (fun z => decide (z.1 = s))
        = acc.filter (fun z => decide (z.1 = s)) ++ l.filter (fun z => decide (z.1 = s)) := by
  induction l generalizing acc with
  | nil => simpa using hacc
  | cons x xs ih =>
    obtain ⟨ha, hb, hc⟩ := ih (insertDesc x acc) (insertDesc_pairwise x acc hacc)
    rw [List.foldl_cons]
    refine ⟨ha, ?_, ?_⟩
    · refine hb.trans ?_
      have p1 : (insertDesc x acc ++ xs).Perm ((x :: acc) ++ xs) :=
        (insertDesc_perm x acc).append_right xs
      exact p1.trans List.perm_middle.symm
    · intro s
      rw [hc s]
      rw [insertDesc_filter s x acc hacc]
      rw [List.filter_cons]
      by_cases hx : x.1 = s
      · simp [hx, List.append_assoc]
      · simp [hx]

theorem pySortDesc_pairwise {α : Type} (l : List (ℚ × α)) :
    (pySortDesc l).Pairwise (fun a b => b.1 ≤ a.1) :=
  (pySortDesc_aux l [] (List.Pairwise.nil)).1

theorem pySortDesc_perm {α : Type} (l : List (ℚ × α)) : (pySortDesc l).Perm l :=
  (pySortDesc_aux l [] (List.Pairwise.nil)).2.1

theorem pySortDesc_filter {α : Type} (l : List (ℚ × α)) (s : ℚ) :
    (pySortDesc l).filter (fun z => decide (z.1 = s)) = l.filter (fun z => decide (z.1 = s)) := by
  have h := (pySortDesc_aux l [] (List.Pairwise.nil)).2.2 s
  simpa using h

/-! ### The scored list -/

theorem entryScore_nonneg (words : List String) (e : Entry) : 0 ≤ entryScore words e := by
  simp only [entryScore]
  exact div_nonneg (Nat.cast_nonneg _) (Nat.cast_nonneg _)

theorem mem_scoredList {words : List String} {tools : List Entry} {p : ℚ × Entry}
    (hp : p ∈ scoredList words tools) :
    p.2 ∈ tools ∧ p.1 = entryScore words p.2 ∧ 0 < p.1 := by
  rcases List.mem_filterMap.mp hp with ⟨e, he, hfe⟩
  have hfe2 : (if 0 < entryScore words e then some (entryScore words e, e) else none)
      = some p := hfe
  by_cases h : 0 < entryScore words e
  · rw [if_pos h] at hfe2
    cases hfe2
    exact ⟨he, rfl, h⟩
  · rw [if_neg h] at hfe2
    exact absurd hfe2 (by simp)

theorem scoredList_filter (words : List String) (tools : List Entry) (s : ℚ) (hs : s ≠ 0) :
    (scoredList words tools).filter (fun z => decide (z.1 = s))
      = (tools.filter (fun e => decide (entryScore words e = s))).map (fun e => (s, e)) := by
  induction tools with
  | nil => rfl
  | cons e es ih =>
    simp only [scoredList, List.filterMap_cons] at ih ⊢
    by_cases h : 0 < entryScore words e
    · rw [if_pos h]
      by_cases hes : entryScore words e = s
      · simp [List.filter_cons, hes, ih]
      · simp [List.filter_cons, hes, ih]
    · rw [if_neg h]
      have hne : entryScore words e ≠ s := by
        intro hh
        apply hs
        have h0 : entryScore words e = 0 :=
          le_antisymm (not_lt.mp h) (entryScore_nonneg words e)
        rw [← hh, h0]
      simp [List.filter_cons, hne, ih]

theorem search_eq_of_ne (r : Registry) (q : String) (k : Int) (hw : queryWords q ≠ []) :
    r.search q k = (pySlice (pySortDesc (scoredList (queryWords q) r.tools)) k).map Prod.snd := by
  have h : (queryWords q).isEmpty = false := by
    cases hqw : (queryWords q).isEmpty
    · rfl
    · exact absurd (List.isEmpty_iff.mp hqw) hw
  simp [Registry.search, h]

theorem pySlice_isPre {α : Type} (l : List α) (k : Int) : pySlice l k <+: l := by
  unfold pySlice
  by_cases h : 0 ≤ k
  · rw [if_pos h]
    exact ⟨l.drop k.toNat, List.take_append_drop _ _⟩
  · rw [if_neg h]
    exact ⟨l.drop (l.length - (-k).toNat), List.take_append_drop _ _⟩

/-- Claim C2: on a query with a non-empty token set, `search` scores each
descriptor as `|queryTokens ∩ docTokens| / |queryTokens|` over the tokens of
`qualifiedName + " " + description` (first conjunct), returns only
descriptors drawn from the catalog with strictly positive score (second),
in descending score order (third), with ties broken by original
registration order — for every score level, the returned entries of that
score are a prefix of the registered entries of that score, in registration
order (fourth) — returning at most `topK` entries (fifth); the returned
entries are moreover the FIRST `topK` of the ranking: no higher-scoring
catalog entry is ever omitted (sixth) and fewer than `topK` entries come
back only when every positive-scoring entry is already included (seventh);
and `search` is deterministic (eighth). -/
theorem c2_search_ranking (r : Registry) (q : String) (k : Int)
    (hw : queryWords q ≠ []) :
    (∀ e : Entry, entryScore (queryWords q) e
        = (((queryWords q).toFinset ∩ (docTokens e).toFinset).card : ℚ)
          / ((queryWords q).toFinset.card : ℚ))
    ∧ (∀ e ∈ r.search q k, e ∈ r.tools ∧ 0 < entryScore (queryWords q) e)
    ∧ (r.search q k).Pairwise
        (fun a b => entryScore (queryWords q) b ≤ entryScore (queryWords q) a)
    ∧ (∀ s : ℚ, (r.search q k).filter (fun e => decide (entryScore (queryWords q) e = s))
        <+: r.tools.filter (fun e => decide (entryScore (queryWords q) e = s)))
    ∧ (0 ≤ k → (r.search q k).length ≤ k.toNat)
    ∧ (∀ e ∈ r.search q k, ∀ f ∈ r.tools,
        entryScore (queryWords q) e < entryScore (queryWords q) f → f ∈ r.search q k)
    ∧ (0 ≤ k → (r.search q k).length < k.toNat →
        ∀ f ∈ r.tools, 0 < entryScore (queryWords q) f → f ∈ r.search q k)
    ∧ r.search q k = r.search q k := by
  have hsearch := search_eq_of_ne r q k hw
  set words := queryWords q with hwords
  set sorted := pySortDesc (scoredList words r.tools) with hsorted
  have hsortedPW : sorted.Pairwise (fun a b => b.1 ≤ a.1) := pySortDesc_pairwise _
  have hperm : sorted.Perm (scoredList words r.tools) := pySortDesc_perm _
  have hmem : ∀ p ∈ sorted, p.2 ∈ r.tools ∧ p.1 = entryScore words p.2 ∧ 0 < p.1 :=
    fun p hp => mem_scoredList (hperm.mem_iff.mp hp)
  have hpre : pySlice sorted k <+: sorted := pySlice_isPre sorted k
  have hmem2 : ∀ p ∈ pySlice sorted k, p.2 ∈ r.tools ∧ p.1 = entryScore words p.2 ∧ 0 < p.1 :=
    fun p hp => hmem p (hpre.sublist.subset hp)
  have hnd : words.Nodup := by
    rw [hwords]
    exact List.nodup_dedup _
  have hformula : ∀ e : Entry, entryScore words e
      = ((words.toFinset ∩ (docTokens e).toFinset).card : ℚ) / (words.toFinset.card : ℚ) := by
    intro e
    have hnd2 : (words.filter (fun w => decide (w ∈ docTokens e))).Nodup := hnd.filter _
    have h1 : (words.filter (fun w => decide (w ∈ docTokens e))).length
        = (words.toFinset ∩ (docTokens e).toFinset).card := by
      rw [← List.toFinset_card_of_nodup hnd2]
      rw [List.toFinset_filter]
      congr 1
      ext w
      simp [List.mem_toFinset]
    have h2 : words.length = words.toFinset.card := (List.toFinset_card_of_nodup hnd).symm
    simp only [entryScore]
    rw [h1, h2]
  have hc2 : ∀ e ∈ r.search q k, e ∈ r.tools ∧ 0 < entryScore words e := by
    intro e he
    rw [hsearch] at he
    rcases List.mem_map.mp he with ⟨p, hp, rfl⟩
    obtain ⟨ht, hsc, hpos⟩ := hmem2 p hp
    exact ⟨ht, hsc ▸ hpos⟩
  have hc3 : (r.search q k).Pairwise
      (fun a b => entryScore words b ≤ entryScore words a) := by
    rw [hsearch, List.pairwise_map]
    have hPW : (pySlice sorted k).Pairwise (fun a b => b.1 ≤ a.1) :=
      hsortedPW.sublist hpre.sublist
    refine hPW.imp_of_mem ?_
    intro a b ha hb hr
    obtain ⟨_, hsa, _⟩ := hmem2 a ha
    obtain ⟨_, hsb, _⟩ := hmem2 b hb
    rw [← hsa, ← hsb]
    exact hr
  have hc4 : ∀ s : ℚ, (r.search q k).filter (fun e => decide (entryScore words e = s))
      <+: r.tools.filter (fun e => decide (entryScore words e = s)) := by
    intro s
    by_cases hs : s = 0
    · have hnil : (r.search q k).filter (fun e => decide (entryScore words e = s)) = [] := by
        rw [List.filter_eq_nil_iff]
        intro e he
        simp only [decide_eq_true_eq]
        intro hes
        obtain ⟨_, hpos⟩ := hc2 e he
        rw [hes, hs] at hpos
        exact lt_irrefl 0 hpos
      rw [hnil]
      exact ⟨_, List.nil_append _⟩
    · rw [hsearch]
      rw [List.filter_map]
      have hcongr : ∀ y ∈ pySlice sorted k,
          ((fun e => decide (entryScore words e = s)) ∘ Prod.snd) y
            = (fun z : ℚ × Entry => decide (z.1 = s)) y := by
        intro y hy
        obtain ⟨_, hsy, _⟩ := hmem2 y hy
        simp only [Function.comp_apply]
        rw [← hsy]
      rw [List.filter_congr hcongr]
      have hpre2 : (pySlice sorted k).filter (fun z : ℚ × Entry => decide (z.1 = s))
          <+: sorted.filter (fun z : ℚ × Entry => decide (z.1 = s)) :=
        hpre.filter _
      have heq : sorted.filter (fun z : ℚ × Entry => decide (z.1 = s))
          = (r.tools.filter (fun e => decide (entryScore words e = s))).map (fun e => (s, e)) := by
        rw [hsorted, pySortDesc_filter]
        exact scoredList_filter words r.tools s hs
      have hfin := hpre2.map Prod.snd
      rw [heq, List.map_map] at hfin
      simpa using hfin
  have hc5 : 0 ≤ k → (r.search q k).length ≤ k.toNat := by
    intro hk
    rw [hsearch, List.length_map]
    unfold pySlice
    rw [if_pos hk]
    rw [List.length_take]
    exact inf_le_left
  obtain ⟨m, hm⟩ : ∃ m, pySlice sorted k = sorted.take m := by
    unfold pySlice
    by_cases h : 0 ≤ k
    · exact ⟨k.toNat, by rw [if_pos h]⟩
    · exact ⟨sorted.length - (-k).toNat, by rw [if_neg h]⟩
  have hpairOf : ∀ f ∈ r.tools, 0 < entryScore words f →
      (entryScore words f, f) ∈ scoredList words r.tools := by
    intro f hf hposf
    apply List.mem_filterMap.mpr
    refine ⟨f, hf, ?_⟩
    show (if 0 < entryScore words f then some (entryScore words f, f) else none)
        = some (entryScore words f, f)
    rw [if_pos hposf]
  have hc6 : ∀ e ∈ r.search q k, ∀ f ∈ r.tools,
      entryScore words e < entryScore words f → f ∈ r.search q k := by
    intro e he f hf hlt
    by_contra hfn
    obtain ⟨_, hpos⟩ := hc2 e he
    have hposf : 0 < entryScore words f := lt_trans hpos hlt
    have hsortedmem : (entryScore words f, f) ∈ sorted :=
      hperm.mem_iff.mpr (hpairOf f hf hposf)
    have hnotin : (entryScore words f, f) ∉ sorted.take m := by
      intro hin
      apply hfn
      rw [hsearch, hm]
      exact List.mem_map_of_mem Prod.snd hin
    have hindrop : (entryScore words f, f) ∈ sorted.drop m := by
      have hsplit : (entryScore words f, f) ∈ sorted.take m ++ sorted.drop m := by
        rw [List.take_append_drop]
        exact hsortedmem
      rcases List.mem_append.mp hsplit with h | h
      · exact absurd h hnotin
      · exact h
    have hPW2 : (sorted.take m ++ sorted.drop m).Pairwise (fun a b => b.1 ≤ a.1) := by
      rw [List.take_append_drop]
      exact hsortedPW
    rw [hsearch, hm] at he
    rcases List.mem_map.mp he with ⟨p, hp, rfl⟩
    have hle : (entryScore words f, f).1 ≤ p.1 :=
      (List.pairwise_append.mp hPW2).2.2 p hp _ hindrop
    obtain ⟨_, hsp, _⟩ := hmem2 p (by rw [hm]; exact hp)
    rw [← hsp] at hlt
    exact absurd hle (not_le.mpr hlt)
  have hc7 : 0 ≤ k → (r.search q k).length < k.toNat →
      ∀ f ∈ r.tools, 0 < entryScore words f → f ∈ r.search q k := by
    intro hk hlen f hf hposf
    rw [hsearch] at hlen ⊢
    unfold pySlice at hlen ⊢
    rw [if_pos hk] at hlen ⊢
    rw [List.length_map, List.length_take] at hlen
    have hslen : sorted.length < k.toNat := by
      by_contra hge
      push_neg at hge
      rw [inf_eq_left.mpr hge] at hlen
      exact lt_irrefl _ hlen
    have htake : sorted.take k.toNat = sorted := List.take_of_length_le (le_of_lt hslen)
    rw [htake]
    exact List.mem_map_of_mem Prod.snd (hperm.mem_iff.mpr (hpairOf f hf hposf))
  exact ⟨hformula, hc2, hc3, hc4, hc5, hc6, hc7, rfl⟩

/-- Witness for C2: a concrete non-empty query against the two-tool catalog
(search results are members with positive score). -/
theorem c2_search_ranking_witness :
    queryWords "first tool" ≠ []
    ∧ (∀ e ∈ regTwo.search "first tool" 5,
        e ∈ regTwo.tools ∧ 0 < entryScore (queryWords "first tool") e) :=
  ⟨by decide, (c2_search_ranking regTwo "first tool" 5 (by decide)).2.1⟩

/-- Counterexample for C3 as stated: `topK` is not clamped to be ≥ 0.  With
`topK = -1` and an empty-token query on a two-tool catalog, `search` returns
one descriptor (Python `tools[:-1]`), not the empty list that
`min(max(topK, 0), total) = 0` would require. -/
theorem c3_counterexample :
    (regTwo.search " " (-1)).length = 1 ∧ regTwo.search " " (-1) ≠ [] := by
  have h : (regTwo.search " " (-1)).length = 1 := rfl
  refine ⟨h, ?_⟩
  intro hnil
  rw [hnil] at h
  simp at h

/-- Claim C3 (amended): for every catalog state and every `topK ≥ 0`,
`search` with a query whose token set is empty returns the first
`min(topK, total)` descriptors — `List.take topK` — in registration order,
and `topK = 0` returns the empty list.  (The claim's clamping of negative
`topK` to 0 is not performed by the code: a negative `topK` behaves as the
Python slice `tools[:topK]`, dropping descriptors from the end, as the
counterexample shows.) -/
theorem c3_amended_empty_query (r : Registry) (q : String) (k : Int)
    (hq : queryWords q = []) (hk : 0 ≤ k) :
    r.search q k = r.tools.take k.toNat ∧ (k = 0 → r.search q k = []) := by
  have hs : r.search q k = pySlice r.tools k := by
    simp [Registry.search, hq]
  have htake : r.search q k = r.tools.take k.toNat := by
    rw [hs]
    unfold pySlice
    rw [if_pos hk]
  refine ⟨htake, ?_⟩
  intro h0
  rw [htake, h0]
  simp

/-- Witness for the amended C3 at a whitespace query and `topK = 2`. -/
theorem c3_amended_empty_query_witness :
    (queryWords " " = [] ∧ (0 : Int) ≤ 2)
    ∧ regTwo.search " " 2 = regTwo.tools.take (Int.toNat 2) :=
  ⟨⟨by decide, by decide⟩, (c3_amended_empty_query regTwo " " 2 (by decide) (by decide)).1⟩

/-- Counterexample for C4 as stated: the empty string is not valid JSON
(`json.loads("")` raises, as `jsonLoadsModel` records), yet `call_tool` with
an empty-string payload does not return the `InvalidArguments` message: the
code substitutes `"{}"` before parsing, so resolution proceeds (the trace is
non-empty) and the result here is the `ToolNotFound` message. -/
theorem c4_counterexample :
    jsonLoadsModel "" = .error "Expecting value: line 1 column 1 (char 0)"
    ∧ callTool Registry.empty jsonLoadsModel "deadbeefcafe" "jira_get_issue" (.strArg "")
      = (toolNotFoundMsg "jira_get_issue" "none found",
         [.lookupEvent "jira_get_issue", .searchEvent "jira_get_issue" 3])
    ∧ (callTool Registry.empty jsonLoadsModel "deadbeefcafe" "jira_get_issue" (.strArg "")).2
      ≠ [] := by
  refine ⟨rfl, rfl, ?_⟩
  intro h
  exact List.cons_ne_nil _ _ h

/-- Claim C4 (amended): for every NON-EMPTY string payload whose stripped
form is not valid JSON, `call_tool` returns the `InvalidArguments` message
carrying the parse error, and neither the catalog lookup nor the backend
session is invoked (empty trace) — parsing happens before resolution and
dispatch.  (The empty string, although itself invalid JSON, is substituted
with `"{}"` before parsing, as the counterexample shows.)  When the payload
is already a structured map it is used as-is: the session, when dispatch is
reached, is invoked with exactly that map (second conjunct). -/
theorem c4_amended_invalid_args (r : Registry) (loads : String → Except String JVal)
    (uuidHex toolName s exc : String)
    (hname : pyStrip toolName ≠ "")
    (hs : s ≠ "")
    (herr : loads (pyStrip s) = .error exc) :
    callTool r loads uuidHex toolName (.strArg s) = (invalidArgsMsg (pyStrip s) exc, [])
    ∧ ∀ (d : List (String × JVal)) (entry : Entry),
        r.get (pyStrip toolName) = some entry →
        (callTool r loads uuidHex toolName (.dictArg d)).2
          = [.lookupEvent (pyStrip toolName),
             .sessionCall ("optimizer-" ++ pyStrTake uuidHex 8) (pyStrip toolName) (.obj d)] := by
  constructor
  · simp only [callTool]
    rw [if_neg hname]
    rw [if_neg hs]
    simp only [herr]
  · intro d entry hget
    simp only [callTool]
    rw [if_neg hname]
    simp only [hget]
    cases hres : entry.started_client.call_tool_sync ("optimizer-" ++ pyStrTake uuidHex 8)
        (pyStrip toolName) (.obj d) with
    | error exc2 => simp [hres]
    | ok result => simp [hres]

/-- Witness for the amended C4 at the spec's own test string. -/
theorem c4_amended_invalid_args_witness :
    (pyStrip "jira_get_issue" ≠ ""
      ∧ ("not valid json" : String) ≠ ""
      ∧ jsonLoadsModel (pyStrip "not valid json")
          = .error "Expecting value: line 1 column 1 (char 0)")
    ∧ callTool Registry.empty jsonLoadsModel "deadbeefcafe" "jira_get_issue"
        (.strArg "not valid json")
      = (invalidArgsMsg (pyStrip "not valid json") "Expecting value: line 1 column 1 (char 0)",
         []) :=
  ⟨⟨by decide, by decide, rfl⟩,
    (c4_amended_invalid_args Registry.empty jsonLoadsModel "deadbeefcafe" "jira_get_issue"
      "not valid json" "Expecting value: line 1 column 1 (char 0)" (by decide) (by decide)
      rfl).1⟩

/-- Counterexample for C5 as stated: a session result that is the empty dict
`{}` (no text extracted, empty map) makes `call_tool` return the stringified
map `"{}"` — `str(result)` — not the `EmptyResult` marker: the fallback to
`str(result)` is taken whenever no text was extracted, with no check that
the map is non-empty. -/
theorem c5_counterexample :
    (callTool regEmptyDict jsonLoadsModel "deadbeefcafe" "t1" (.dictArg [])).1 = "\x7b\x7d"
    ∧ ("\x7b\x7d" : String) ≠ emptyResultMsg :=
  ⟨rfl, by decide⟩

/-- Claim C5 (amended): when the session's result is a structured map with
no extractable text and a non-error status, the dispatcher falls back to the
string representation of the whole result whenever that representation is
non-empty — including for an empty map, whose `str()` is `"{}"` — and
returns the `EmptyResult` marker only when the representation is the empty
string; for a non-map result it returns the marker exactly when the result
is falsy. -/
theorem c5_amended_empty_fallback (r : Registry) (loads : String → Except String JVal)
    (uuidHex toolName : String) (d : List (String × JVal)) (entry : Entry)
    (hname : pyStrip toolName ≠ "")
    (hget : r.get (pyStrip toolName) = some entry) :
    (∀ (statusOpt : Option String) (content : List Block) (rep : String),
      entry.started_client.call_tool_sync ("optimizer-" ++ pyStrTake uuidHex 8)
          (pyStrip toolName) (.obj d) = .ok (.dict statusOpt content rep) →
      statusOpt.getD "success" ≠ "error" →
      (content.map (fun b => b.text)).filter (fun t => t != "") = [] →
      (callTool r loads uuidHex toolName (.dictArg d)).1
        = (if rep = "" then emptyResultMsg else rep))
    ∧ (∀ (truthy : Bool) (rep : String),
      entry.started_client.call_tool_sync ("optimizer-" ++ pyStrTake uuidHex 8)
          (pyStrip toolName) (.obj d) = .ok (.nonDict truthy rep) →
      (callTool r loads uuidHex toolName (.dictArg d)).1
        = (if truthy then rep else emptyResultMsg)) := by
  constructor
  · intro statusOpt content rep hres hstatus hempty
    simp only [callTool]
    rw [if_neg hname]
    simp only [hget, hres, extractText]
    rw [hempty]
    rw [if_neg hstatus]
    simp
  · intro truthy rep hres
    simp only [callTool]
    rw [if_neg hname]
    simp only [hget, hres, extractText]

/-- Witness for the amended C5 at the empty-dict session result. -/
theorem c5_amended_empty_fallback_witness :
    (pyStrip "t1" ≠ ""
      ∧ regEmptyDict.get (pyStrip "t1") = some (mkEntry "S" clientEmptyDict toolT1))
    ∧ (callTool regEmptyDict jsonLoadsModel "deadbeefcafe" "t1" (.dictArg [])).1
      = (if ("\x7b\x7d" : String) = "" then emptyResultMsg else "\x7b\x7d") :=
  ⟨⟨by decide, rfl⟩,
    (c5_amended_empty_fallback regEmptyDict jsonLoadsModel "deadbeefcafe" "t1" []
      (mkEntry "S" clientEmptyDict toolT1) (by decide) rfl).1 none [] "\x7b\x7d" rfl
      (by decide) rfl⟩

/-- Claim C7: for a dispatched tool whose session returns a structured map
with a non-error status, the non-empty `text` fields of the content blocks
are concatenated with newline separators to form the success output; at the
result `{"status": "success", "content": [{"text": "ok"}]}` the output is
exactly `"ok"` (witness). -/
theorem c7_success_text_concat (r : Registry) (loads : String → Except String JVal)
    (uuidHex toolName : String) (d : List (String × JVal)) (entry : Entry)
    (statusOpt : Option String) (content : List Block) (rep : String)
    (hname : pyStrip toolName ≠ "")
    (hget : r.get (pyStrip toolName) = some entry)
    (hres : entry.started_client.call_tool_sync ("optimizer-" ++ pyStrTake uuidHex 8)
        (pyStrip toolName) (.obj d) = .ok (.dict statusOpt content rep))
    (hstatus : statusOpt.getD "success" ≠ "error")
    (hparts : (content.map (fun b => b.text)).filter (fun t => t != "") ≠ []) :
    (callTool r loads uuidHex toolName (.dictArg d)).1
      = String.intercalate "\n" ((content.map (fun b => b.text)).filter (fun t => t != "")) := by
  obtain ⟨p, rest, hcons⟩ :
      ∃ p rest, (content.map (fun b => b.text)).filter (fun t => t != "") = p :: rest := by
    cases hl : (content.map (fun b => b.text)).filter (fun t => t != "") with
    | nil => exact absurd hl hparts
    | cons p rest => exact ⟨p, rest, rfl⟩
  have hpne : p ≠ "" := by
    have hp : p ∈ (content.map (fun b => b.text)).filter (fun t => t != "") :=
      hcons ▸ List.mem_cons_self p rest
    have hb := List.of_mem_filter hp
    simpa using hb
  have hne : String.intercalate "\n" (p :: rest) ≠ "" := intercalate_ne_empty "\n" p rest hpne
  simp only [callTool]
  rw [if_neg hname]
  simp only [hget, hres, extractText]
  rw [hcons]
  simp only [List.isEmpty_cons, Bool.false_eq_true, if_false]
  rw [if_neg hstatus]
  rw [if_neg hne]

/-- Witness for C7: the session answering
`{"status": "success", "content": [{"text": "ok"}]}` makes `call_tool`
return exactly `"ok"`. -/
theorem c7_success_text_concat_witness :
    (pyStrip "t1" ≠ ""
      ∧ regText.get (pyStrip "t1") = some (mkEntry "S" clientOkText toolT1)
      ∧ ((some "success").getD "success") ≠ "error"
      ∧ ((([⟨"ok"⟩] : List Block).map (fun b => b.text)).filter (fun t => t != "")) ≠ [])
    ∧ (callTool regText jsonLoadsModel "deadbeefcafe" "t1" (.dictArg [])).1 = "ok" :=
  ⟨⟨by decide, rfl, by decide, by decide⟩,
    c7_success_text_concat regText jsonLoadsModel "deadbeefcafe" "t1" []
      (mkEntry "S" clientOkText toolT1) (some "success") [⟨"ok"⟩] "\x7b...\x7d"
      (by decide) rfl rfl (by decide) (by decide)⟩

/-- Claim C8: when the session's synchronous invocation raises, `call_tool`
catches the exception and returns the `TransportError` message (advising
that the backend session may have closed and restart is external); the
embedding is a total function, so nothing propagates out of the operation,
and the trace contains exactly one session invocation — no retry. -/
theorem c8_transport_error (r : Registry) (loads : String → Except String JVal)
    (uuidHex toolName : String) (d : List (String × JVal)) (entry : Entry) (exc : PyExn)
    (hname : pyStrip toolName ≠ "")
    (hget : r.get (pyStrip toolName) = some entry)
    (hres : entry.started_client.call_tool_sync ("optimizer-" ++ pyStrTake uuidHex 8)
        (pyStrip toolName) (.obj d) = .error exc) :
    callTool r loads uuidHex toolName (.dictArg d)
      = (transportErrorMsg (pyStrip toolName) exc,
         [.lookupEvent (pyStrip toolName),
          .sessionCall ("optimizer-" ++ pyStrTake uuidHex 8) (pyStrip toolName) (.obj d)])
    ∧ ((callTool r loads uuidHex toolName (.dictArg d)).2.countP
        (fun ev => match ev with | .sessionCall _ _ _ => true | _ => false)) = 1 := by
  have h1 : callTool r loads uuidHex toolName (.dictArg d)
      = (transportErrorMsg (pyStrip toolName) exc,
         [.lookupEvent (pyStrip toolName),
          .sessionCall ("optimizer-" ++ pyStrTake uuidHex 8) (pyStrip toolName) (.obj d)]) := by
    simp only [callTool]
    rw [if_neg hname]
    simp only [hget, hres]
  refine ⟨h1, ?_⟩
  rw [h1]
  simp [List.countP_cons]

/-- Witness for C8: the dead-session client turns into the transport-error
message. -/
theorem c8_transport_error_witness :
    (pyStrip "t1" ≠ ""
      ∧ regErr.get (pyStrip "t1") = some (mkEntry "S" dummyClient toolT1)
      ∧ (mkEntry "S" dummyClient toolT1).started_client.call_tool_sync
          ("optimizer-" ++ pyStrTake "deadbeefcafe" 8) (pyStrip "t1") (.obj [])
        = .error ⟨"RuntimeError", "session closed"⟩)
    ∧ callTool regErr jsonLoadsModel "deadbeefcafe" "t1" (.dictArg [])
      = (transportErrorMsg (pyStrip "t1") ⟨"RuntimeError", "session closed"⟩,
         [.lookupEvent (pyStrip "t1"),
          .sessionCall ("optimizer-" ++ pyStrTake "deadbeefcafe" 8) (pyStrip "t1") (.obj [])]) :=
  ⟨⟨by decide, rfl, rfl⟩,
    (c8_transport_error regErr jsonLoadsModel "deadbeefcafe" "t1" []
      (mkEntry "S" dummyClient toolT1) ⟨"RuntimeError", "session closed"⟩
      (by decide) rfl rfl).1⟩

/-- Claim C10: an empty-string (or `None`) argument payload is substituted
with the literal `"{}"` before JSON parsing, so `call_tool` behaves exactly
as if `"{}"` had been passed and — `json.loads("{}")` being the empty object
— proceeds past parsing to the catalog lookup with an empty argument map
rather than returning an `InvalidArguments` failure; a whitespace-only
non-empty payload, by contrast, strips to `""`, still fails JSON parsing,
and yields the `InvalidArguments` message. -/
theorem c10_empty_args_default (r : Registry) (loads : String → Except String JVal)
    (uuidHex toolName : String)
    (hname : pyStrip toolName ≠ "")
    (hok : loads (pyStrip "\x7b\x7d") = .ok (.obj [])) :
    callTool r loads uuidHex toolName (.strArg "")
      = callTool r loads uuidHex toolName (.strArg "\x7b\x7d")
    ∧ callTool r loads uuidHex toolName .noneArg
      = callTool r loads uuidHex toolName (.strArg "\x7b\x7d")
    ∧ (callTool r loads uuidHex toolName (.strArg "")).2.head?
        = some (.lookupEvent (pyStrip toolName))
    ∧ (∀ entry, r.get (pyStrip toolName) = some entry →
        (callTool r loads uuidHex toolName (.strArg "")).2
          = [.lookupEvent (pyStrip toolName),
             .sessionCall ("optimizer-" ++ pyStrTake uuidHex 8) (pyStrip toolName) (.obj [])])
    ∧ (∀ (s exc : String), s ≠ "" → pyStrip s = "" → loads "" = .error exc →
        callTool r loads uuidHex toolName (.strArg s) = (invalidArgsMsg "" exc, [])) := by
  refine ⟨rfl, rfl, ?_, ?_, ?_⟩
  · rw [show callTool r loads uuidHex toolName (.strArg "")
        = callTool r loads uuidHex toolName (.strArg "\x7b\x7d") from rfl]
    simp only [callTool]
    rw [if_neg hname]
    simp only [ite_self, hok]
    cases hget : r.get (pyStrip toolName) with
    | none => simp [hget]
    | some entry =>
      simp only [hget]
      cases hres : entry.started_client.call_tool_sync ("optimizer-" ++ pyStrTake uuidHex 8)
          (pyStrip toolName) (.obj []) with
      | error exc2 => simp [hres]
      | ok result => simp [hres]
  · intro entry hget
    rw [show callTool r loads uuidHex toolName (.strArg "")
        = callTool r loads uuidHex toolName (.strArg "\x7b\x7d") from rfl]
    simp only [callTool]
    rw [if_neg hname]
    simp only [ite_self, hok, hget]
    cases hres : entry.started_client.call_tool_sync ("optimizer-" ++ pyStrTake uuidHex 8)
        (pyStrip toolName) (.obj []) with
    | error exc2 => simp [hres]
    | ok result => simp [hres]
  · intro s exc hsne hstrip herr
    simp only [callTool]
    rw [if_neg hname]
    rw [if_neg hsne]
    rw [hstrip, herr]

/-- Witness for C10: empty-string arguments behave as `"{}"` against the
one-tool catalog. -/
theorem c10_empty_args_default_witness :
    (pyStrip "t1" ≠ "" ∧ jsonLoadsModel (pyStrip "\x7b\x7d") = .ok (.obj []))
    ∧ callTool regErr jsonLoadsModel "deadbeefcafe" "t1" (.strArg "")
      = callTool regErr jsonLoadsModel "deadbeefcafe" "t1" (.strArg "\x7b\x7d") :=
  ⟨⟨by decide, rfl⟩,
    (c10_empty_args_default regErr jsonLoadsModel "deadbeefcafe" "t1" (by decide) rfl).1⟩

end MCPOptimizer
